import Mathlib

/-!
# chado-jbrowse-connector: range queries and track catalogue

A shallow embedding of `chado.go`.  Handlers are pure functions from the
request and the backend to the state of the response writer, the list of
backend queries issued and a flag telling whether the handler panicked.

Covered: `okJSON`, `notOkJSON`, `statsGlobal`, `featureSeqHandler`,
`sequenceHandler`, `featureHandler`, `listSoTypes`, `refSeqsData`, `refSeqs`,
`orgTracksConf` and `orgTrackListJSON`.  Left out: `listOrganisms`,
`mainHandler` (page templating) and `connect` (routing and start-up), and the
lines printed by `fmt.Println`.
-/

namespace Chado

/-! ## Go machine integers (`int` on a 64-bit platform) -/

/-- Smallest value of Go's `int`. -/
def intMin : Int := -(2 ^ 63)

/-- Largest value of Go's `int`. -/
def intMax : Int := 2 ^ 63 - 1

/-- Reduction of a mathematical integer to the two's-complement 64-bit value
Go stores for it. -/
def wrapInt (x : Int) : Int := (x + 2 ^ 63) % 2 ^ 64 - 2 ^ 63

/-- Go's `a - b` on `int`: the difference, wrapped to 64 bits. -/
def intSub (a b : Int) : Int := wrapInt (a - b)

/-- The value is representable as a Go `int`. -/
def InInt (x : Int) : Prop := intMin ≤ x ∧ x ≤ intMax

instance (x : Int) : Decidable (InInt x) := by
  unfold InInt; exact inferInstance

/-! ## `strconv.Atoi`

`featureSeqHandler` reads its coordinates with Go's standard `strconv.Atoi`
and drops the error.  The library function is transcribed here (base 10,
64-bit `int`): `Atoi s` is `ParseInt(s, 10, 0)`, which strips one sign and
calls `ParseUint`. -/

/-- The two error kinds of `strconv.NumError`. -/
inductive NumError where
  | ErrSyntax
  | ErrRange
  deriving DecidableEq, Repr

/-- `lower(c)` of strconv: `c | ('x' - 'X')`. -/
def lower (c : Nat) : Nat := c ||| 0x20

/-- The digit value `d` that the loop of `ParseUint` assigns to a byte, or
`none` in the `default` case of its switch.  (In base 10 an underscore is
not skipped.)  A non-ASCII character stands for its UTF-8 bytes, which all
fall into the `default` case just as the character does here. -/
def digitVal (c : Char) : Option Nat :=
  let b := c.toNat
  if 48 ≤ b ∧ b ≤ 57 then some (b - 48)
  else if 97 ≤ lower b ∧ lower b ≤ 122 then some (lower b - 97 + 10)
  else none

/-- `maxUint64/10 + 1`, the cutoff of `ParseUint` in base 10. -/
def uintCutoff : Nat := (2 ^ 64 - 1) / 10 + 1

/-- `maxVal` of `ParseUint` for `bitSize = 64`. -/
def uintMaxVal : Nat := 2 ^ 64 - 1

/-- The scanning loop of `strconv.ParseUint(s, 10, 0)` started with
accumulator `n`. -/
def parseUintLoop : List Char → Nat → Nat × Option NumError
  | [], n => (n, none)
  | c :: cs, n =>
    match digitVal c with
    | none => (0, some NumError.ErrSyntax)
    | some d =>
      if 10 ≤ d then (0, some NumError.ErrSyntax)
      else if uintCutoff ≤ n then (uintMaxVal, some NumError.ErrRange)
      else
        let n10 := (n * 10) % 2 ^ 64
        let n1 := (n10 + d) % 2 ^ 64
        if n1 < n10 ∨ uintMaxVal < n1 then (uintMaxVal, some NumError.ErrRange)
        else parseUintLoop cs n1

/-- Go's `strconv.ParseUint(s, 10, 0)`. -/
def ParseUint (s : List Char) : Nat × Option NumError :=
  match s with
  | [] => (0, some NumError.ErrSyntax)
  | _ => parseUintLoop s 0

/-- Go's `strconv.ParseInt(s, 10, 0)`. -/
def ParseInt (s : String) : Int × Option NumError :=
  match s.data with
  | [] => (0, some NumError.ErrSyntax)
  | c :: cs =>
    let neg : Bool := c == '-'
    let rest := if c == '+' ∨ c == '-' then cs else c :: cs
    match ParseUint rest with
    | (_, some NumError.ErrSyntax) => (0, some NumError.ErrSyntax)
    | (un, _) =>
      if neg = false ∧ 2 ^ 63 ≤ un then (2 ^ 63 - 1, some NumError.ErrRange)
      else if neg = true ∧ 2 ^ 63 < un then (-(2 ^ 63), some NumError.ErrRange)
      else
        let n := wrapInt (un : Int)
        (if neg then wrapInt (-n) else n, none)

/-- Go's `strconv.Atoi`: `ParseInt(s, 10, 0)` converted to `int`. -/
def Atoi (s : String) : Int × Option NumError := ParseInt s

/-! ## Slices -/

/-- A Go slice value: `none` is the nil slice, `some xs` a non-nil slice with
elements `xs`. -/
abbrev Slice (α : Type) := Option (List α)

/-- The elements a `range` loop visits. -/
def Slice.elems {α : Type} : Slice α → List α
  | none => []
  | some xs => xs

/-- Go's `append(s, x)`. -/
def Slice.append {α : Type} (s : Slice α) (x : α) : Slice α :=
  some (s.elems ++ [x])

/-- Assignment through `s[idx]`: replace the element at `idx` by its image. -/
def updateAt {α : Type} (f : α → α) : Nat → List α → List α
  | _, [] => []
  | 0, x :: xs => f x :: xs
  | idx + 1, x :: xs => x :: updateAt f idx xs

/-- The loop `for idx := range s { s[idx] = f(s[idx]) }`: the indices
`0 .. len(s)-1` are visited in order and each element is updated in place. -/
def forRange {α : Type} (f : α → α) (s : Slice α) : Slice α :=
  match s with
  | none => none
  | some xs => some ((List.range xs.length).foldl (fun acc idx => updateAt f idx acc) xs)

/-! ## Rows and response values

The struct declarations are not part of `chado.go`.  Each record below has
the fields `chado.go` reads or assigns; the columns it never touches are
carried along in one field of a type parameter. -/

/-- Row of the reference-sequence listing.  Modelled from the spec: the
struct declaration is missing from `chado.go`; the fields are those of the
response shape `{name, start, end, length, seqChunkSize}`. -/
structure refSeqStruct where
  Name : String
  Start : Int
  End : Int
  Length : Int
  SeqChunkSize : Int
  deriving DecidableEq, Repr

/-- Row of the sequence query: the `Start` and `End` fields assigned by
`sequenceHandler`, and the remaining columns (the bases) in `rest`. -/
structure refSeqWithSeqStruct (ρ : Type) where
  Start : Int
  End : Int
  rest : ρ
  deriving DecidableEq, Repr

/-- Feature row: the `Subfeatures` slice assigned by `featureHandler` (its
element type `ProcessedFeature` is the parameter `π`), and the remaining
columns in `rest`. -/
structure SimpleFeature (φ π : Type) where
  rest : φ
  Subfeatures : Slice π
  deriving DecidableEq, Repr

/-- Row of the feature-type listing; the field is `Type` in Go. -/
structure soType where
  Type_ : String
  deriving DecidableEq, Repr

/-- Response container of the sequence path. -/
structure FeatureContainerRefSeqWithStruct (ρ : Type) where
  Features : Slice (refSeqWithSeqStruct ρ)
  deriving DecidableEq, Repr

/-- Response container of the feature path. -/
structure FeatureContainerFeatures (φ π : Type) where
  Features : Slice (SimpleFeature φ π)
  deriving DecidableEq, Repr

/-- A Go `map[string]string`, as an association list with unique keys. -/
abbrev StringMap := List (String × String)

/-- The assignment `m[k] = v`. -/
def StringMap.set (m : StringMap) (k v : String) : StringMap :=
  if m.any (fun kv => kv.1 == k) then
    m.map (fun kv => if kv.1 == k then (k, v) else kv)
  else m ++ [(k, v)]

/-- The reference-sequence track, with the fields of the composite literal in
`orgTrackListJSON` (`Type` is written `Type_`). -/
structure SeqTrack where
  UseAsRefSeqStore : Bool
  Label : String
  Key : String
  Type_ : String
  StoreClass : String
  BaseURL : String
  Query : StringMap
  deriving DecidableEq, Repr

/-- One feature-type track, with the fields of the composite literal in
`orgTrackListJSON`. -/
structure TrackListTrack where
  Category : String
  Label : String
  Key : String
  Query : StringMap
  RegionFeatureDensities : Bool
  Type_ : String
  TrackType : String
  StoreClass : String
  deriving DecidableEq, Repr

/-- An element of `tracks []interface{}`: one of the two track structs. -/
inductive Track where
  | seq (t : SeqTrack)
  | feat (t : TrackListTrack)
  deriving DecidableEq, Repr

/-- The `Names` entry of the track list. -/
structure NameStruct where
  Type_ : String
  URL : String
  deriving DecidableEq, Repr

/-- The track list document. -/
structure TrackList where
  RefSeqs : String
  Names : NameStruct
  Tracks : Slice Track
  deriving DecidableEq, Repr

/-! ## Backend -/

/-- The parameterised queries `chado.go` sends through `db.Select`, with
their arguments in call order. -/
inductive Query where
  | refSeqWithSeqQuery (organism refseq : String) (a3 a4 : Int)
  | simpleFeatQuery (organism refseq soType : String) (a4 a5 : Int)
  | soTypeQuery (organism : String)
  | refSeqQuery (organism : String)
  deriving DecidableEq, Repr

/-- What the data store delivers for one query: the rows that were scanned, in
order, and the error that ended the read, if any.  With an error the rows are
those scanned before it: none when the query itself failed, some when the read
broke off part-way. -/
structure Fetched (α : Type) where
  rows : List α
  err : Option String
  deriving DecidableEq, Repr

/-- The data store behind `db`: what each query delivers for each argument
list. -/
structure Backend (ρ φ π : Type) where
  refSeqWithSeq : String → String → Int → Int → Fetched (refSeqWithSeqStruct ρ)
  simpleFeat : String → String → String → Int → Int → Fetched (SimpleFeature φ π)
  soTypes : String → Fetched soType
  refSeq : String → Fetched refSeqStruct

/-- Outcome of one `db.Select(&dest, ...)`: the destination slice afterwards,
the returned error, and the query that was sent. -/
structure Selected (α : Type) where
  dest : Slice α
  err : Option String
  query : Query

/-- The effect of `db.Select(&dest, q, args...)`: every row that was scanned
is appended to the destination, one at a time, and the error of the read is
returned; rows scanned before an error stay in the destination. -/
def Select {α : Type} (dest : Slice α) (q : Query) (res : Fetched α) : Selected α :=
  { dest := res.rows.foldl Slice.append dest, err := res.err, query := q }

/-- The call `db.Select(&dest, refSeqWithSeqQuery, organism, refseq, a3, a4)`:
the backend is asked with these four arguments and the query is recorded with
the same four. -/
def selectRefSeqWithSeq {ρ φ π : Type} (db : Backend ρ φ π)
    (dest : Slice (refSeqWithSeqStruct ρ)) (organism refseq : String) (a3 a4 : Int) :
    Selected (refSeqWithSeqStruct ρ) :=
  Select dest (Query.refSeqWithSeqQuery organism refseq a3 a4)
    (db.refSeqWithSeq organism refseq a3 a4)

/-- The call `db.Select(&dest, simpleFeatQuery, organism, refseq, soType, a4,
a5)`. -/
def selectSimpleFeat {ρ φ π : Type} (db : Backend ρ φ π)
    (dest : Slice (SimpleFeature φ π)) (organism refseq soType : String) (a4 a5 : Int) :
    Selected (SimpleFeature φ π) :=
  Select dest (Query.simpleFeatQuery organism refseq soType a4 a5)
    (db.simpleFeat organism refseq soType a4 a5)

/-- The call `db.Select(&dest, soTypeQuery, organism)`. -/
def selectSoType {ρ φ π : Type} (db : Backend ρ φ π) (dest : Slice soType)
    (organism : String) : Selected soType :=
  Select dest (Query.soTypeQuery organism) (db.soTypes organism)

/-- The call `db.Select(&dest, refSeqQuery, organism)`. -/
def selectRefSeq {ρ φ π : Type} (db : Backend ρ φ π) (dest : Slice refSeqStruct)
    (organism : String) : Selected refSeqStruct :=
  Select dest (Query.refSeqQuery organism) (db.refSeq organism)

/-! ## Requests and the response writer -/

/-- An inbound request: the parsed form (`r.Form`, a key with its values) and
the route variables (`mux.Vars(r)`). -/
structure Request where
  form : List (String × List String)
  vars : List (String × String)
  deriving DecidableEq, Repr

/-- The method `r.Form.Get(key)`: the first value of the key, or the empty
string. -/
def Request.formGet (r : Request) (key : String) : String :=
  match r.form.lookup key with
  | some (v :: _) => v
  | _ => ""

/-- The lookup `mux.Vars(r)[key]`: the empty string for a missing key. -/
def Request.var (r : Request) (key : String) : String :=
  (r.vars.lookup key).getD ""

/-- What a handler hands to the client: raw bytes or a value given to the JSON
encoder. -/
inductive Payload (ρ φ π : Type) where
  | raw (s : String)
  | sequences (c : FeatureContainerRefSeqWithStruct ρ)
  | features (c : FeatureContainerFeatures φ π)
  | refSeqs (seqs : Slice refSeqStruct)
  | trackList (data : TrackList)
  deriving DecidableEq, Repr

/-- State of an `http.ResponseWriter`: the header map, the status code once
`WriteHeader` was called, and the values written to the body in order. -/
structure ResponseWriter (ρ φ π : Type) where
  header : StringMap
  status : Option Nat
  body : List (Payload ρ φ π)
  deriving DecidableEq, Repr

/-- The writer a handler receives: nothing set, nothing written. -/
def ResponseWriter.fresh {ρ φ π : Type} : ResponseWriter ρ φ π :=
  { header := [], status := none, body := [] }

/-- The call `w.Header().Set(k, v)`. -/
def ResponseWriter.setHeader {ρ φ π : Type} (w : ResponseWriter ρ φ π) (k v : String) :
    ResponseWriter ρ φ π :=
  { w with header := w.header.set k v }

/-- The call `w.WriteHeader(code)`: the first call fixes the status. -/
def ResponseWriter.WriteHeader {ρ φ π : Type} (w : ResponseWriter ρ φ π) (code : Nat) :
    ResponseWriter ρ φ π :=
  match w.status with
  | none => { w with status := some code }
  | some _ => w

/-- A value reaches the body (`w.Write`, or the JSON encoder writing to `w`). -/
def ResponseWriter.Write {ρ φ π : Type} (w : ResponseWriter ρ φ π) (p : Payload ρ φ π) :
    ResponseWriter ρ φ π :=
  { w with body := w.body ++ [p] }

/-- What a handler leaves behind: the writer, the backend queries it issued in
order, and whether it ended in `panic`. -/
structure Result (ρ φ π : Type) where
  w : ResponseWriter ρ φ π
  queries : List Query
  panicked : Bool
  deriving DecidableEq, Repr

/-- The surroundings of a handler: the backend behind `db`, the configured
service address `addr`, and whether `json.NewEncoder(w).Encode` reports an
error for this response. -/
structure Env (ρ φ π : Type) where
  db : Backend ρ φ π
  addr : String
  encodeFails : Bool

/-- `http.StatusOK`. -/
def StatusOK : Nat := 200

/-- `http.StatusBadRequest`. -/
def StatusBadRequest : Nat := 400

/-! ## Handlers -/

section Handlers

variable {ρ φ π : Type}

/-- Go function `okJSON`: content type, CORS headers, status 200. -/
def okJSON (w : ResponseWriter ρ φ π) : ResponseWriter ρ φ π :=
  (((w.setHeader "Content-Type" "application/json; charset=UTF-8").setHeader
    "Access-Control-Allow-Origin" "*").setHeader
    "Access-Control-Allow-Headers" "Origin, X-Requested-With, Content-Type, Accept").WriteHeader
    StatusOK

/-- Go function `notOkJSON`: CORS headers, status 400, nothing written. -/
def notOkJSON (w : ResponseWriter ρ φ π) : ResponseWriter ρ φ π :=
  ((w.setHeader "Access-Control-Allow-Origin" "*").setHeader
    "Access-Control-Allow-Headers" "Origin, X-Requested-With, Content-Type, Accept").WriteHeader
    StatusBadRequest

/-- The closing step shared by the JSON handlers,
`if err := json.NewEncoder(w).Encode(v); err != nil { panic(err) }`:
the value is handed to the encoder, and an encoder error panics. -/
def encodeOrPanic (env : Env ρ φ π) (w : ResponseWriter ρ φ π) (v : Payload ρ φ π)
    (queries : List Query) : Result ρ φ π :=
  { w := w.Write v, queries := queries, panicked := env.encodeFails }

/-- Go function `statsGlobal`. -/
def statsGlobal (w : ResponseWriter ρ φ π) (_r : Request) : Result ρ φ π :=
  { w := (okJSON w).Write (Payload.raw "\x7b\"featureDensity\": 0.01\x7d"),
    queries := [], panicked := false }

/-- Go function `sequenceHandler`. -/
def sequenceHandler (env : Env ρ φ π) (w : ResponseWriter ρ φ π) (_r : Request)
    (organism refseq : String) (start end_ : Int) : Result ρ φ π :=
  let seq : Slice (refSeqWithSeqStruct ρ) := some []
  let sel := selectRefSeqWithSeq env.db seq organism refseq start (intSub end_ start)
  match sel.err with
  | some _ => { w := w, queries := [sel.query], panicked := true }
  | none =>
    let seq := forRange (fun x => { x with Start := start, End := end_ }) sel.dest
    let container : FeatureContainerRefSeqWithStruct ρ := { Features := seq }
    encodeOrPanic env (okJSON w) (Payload.sequences container) [sel.query]

/-- Go function `featureHandler`.  The error of the fetch is printed and
otherwise ignored. -/
def featureHandler (env : Env ρ φ π) (w : ResponseWriter ρ φ π) (r : Request)
    (organism refseq : String) (start end_ : Int) : Result ρ φ π :=
  let features : Slice (SimpleFeature φ π) := some []
  let soType := r.formGet "soType"
  let sel := selectSimpleFeat env.db features organism refseq soType start end_
  let features := forRange (fun x => { x with Subfeatures := some [] }) sel.dest
  let container : FeatureContainerFeatures φ π := { Features := features }
  encodeOrPanic env (okJSON w) (Payload.features container) [sel.query]

/-- The coordinate `start, _ := strconv.Atoi(r.Form.Get("start"))` of
`featureSeqHandler`: the value of `Atoi`, its error dropped. -/
def requestStart (r : Request) : Int := (Atoi (r.formGet "start")).1

/-- The coordinate `end, _ := strconv.Atoi(r.Form.Get("end"))` of
`featureSeqHandler`: the value of `Atoi`, its error dropped. -/
def requestEnd (r : Request) : Int := (Atoi (r.formGet "end")).1

/-- Go function `featureSeqHandler`.  The calls it makes are spelled
`SequenceHandler` and `FeatureHandler` in the file; they are the two
functions above. -/
def featureSeqHandler (env : Env ρ φ π) (w : ResponseWriter ρ φ π) (r : Request) :
    Result ρ φ π :=
  let start := requestStart r
  let end_ := requestEnd r
  let organism := r.var "organism"
  let refseq := r.var "refseq"
  if end_ < start then
    { w := notOkJSON w, queries := [], panicked := false }
  else if r.formGet "sequence" = "true" then
    sequenceHandler env w r organism refseq start end_
  else
    featureHandler env w r organism refseq start end_

/-- Go function `listSoTypes`, paired with the queries it sent.  The error
of the fetch is printed and otherwise ignored. -/
def listSoTypes (db : Backend ρ φ π) (organism : String) : Slice soType × List Query :=
  let soTypeList : Slice soType := some []
  let sel := selectSoType db soTypeList organism
  (sel.dest, [sel.query])

/-- Go function `refSeqsData`, paired with the queries it sent.  The error of
`db.Select` is not looked at. -/
def refSeqsData (db : Backend ρ φ π) (organism : String) :
    Slice refSeqStruct × List Query :=
  let seqs : Slice refSeqStruct := some []
  let sel := selectRefSeq db seqs organism
  let seqs := forRange
    (fun s => { { s with SeqChunkSize := 20000 } with End := s.Length }) sel.dest
  (seqs, [sel.query])

/-- Go function `refSeqs`. -/
def refSeqs (env : Env ρ φ π) (w : ResponseWriter ρ φ π) (r : Request) : Result ρ φ π :=
  let organism := r.var "organism"
  let seqs := refSeqsData env.db organism
  encodeOrPanic env (okJSON w) (Payload.refSeqs seqs.1) seqs.2

/-- Go function `orgTracksConf`. -/
def orgTracksConf (w : ResponseWriter ρ φ π) (_r : Request) : Result ρ φ π :=
  { w := ((w.setHeader "Access-Control-Allow-Origin" "*").setHeader
      "Access-Control-Allow-Headers"
      "Origin, X-Requested-With, Content-Type, Accept").WriteHeader StatusOK,
    queries := [], panicked := false }

/-- The `tracks` slice of `orgTrackListJSON` once its loop has run over the
feature types `soTypes`. -/
def buildTracks (addr organism : String) (soTypes : Slice soType) : Slice Track :=
  let tracks : Slice Track := none
  let queryMap : StringMap := StringMap.set [] "sequence" "true"
  let tracks := tracks.append (Track.seq
    { UseAsRefSeqStore := true
      Label := "ref_seq"
      Key := "REST Reference Sequence"
      Type_ := "JBrowse/View/Track/Sequence"
      StoreClass := "JBrowse/Store/SeqFeature/REST"
      BaseURL := addr ++ "/link/" ++ organism ++ "/"
      Query := queryMap })
  soTypes.elems.foldl
    (fun tracks sotype =>
      let tmpMap : StringMap := StringMap.set [] "soType" sotype.Type_
      tracks.append (Track.feat
        { Category := "Generic SO Type Tracks"
          Label := organism ++ "_" ++ sotype.Type_
          Key := sotype.Type_
          Query := tmpMap
          RegionFeatureDensities := true
          Type_ := "JBrowse/View/Track/HTMLFeatures"
          TrackType := "JBrowse/View/Track/HTMLFeatures"
          StoreClass := "JBrowse/Store/SeqFeature/REST" }))
    tracks

/-- Go function `orgTrackListJSON`. -/
def orgTrackListJSON (env : Env ρ φ π) (w : ResponseWriter ρ φ π) (r : Request) :
    Result ρ φ π :=
  let organism := r.var "organism"
  let soTypes := listSoTypes env.db organism
  let tracks := buildTracks env.addr organism soTypes.1
  let data : TrackList :=
    { RefSeqs := env.addr ++ "/link/" ++ organism ++ "/refSeqs.json"
      Names := { Type_ := "REST", URL := env.addr ++ "/link/names" }
      Tracks := tracks }
  encodeOrPanic env (okJSON w) (Payload.trackList data) soTypes.2

end Handlers

/-! ## Decimal numerals (specification side) -/

/-- The character is one of `0` .. `9`. -/
def IsDigit (c : Char) : Prop := 48 ≤ c.toNat ∧ c.toNat ≤ 57

instance (c : Char) : Decidable (IsDigit c) := by
  unfold IsDigit; exact inferInstance

/-- The number denoted by the decimal digits `ds` written after a number
already read as `n`. -/
def decValue : List Char → Nat → Nat
  | [], n => n
  | c :: cs, n => decValue cs (n * 10 + (c.toNat - 48))

/-- The text that `ParseInt` hands to `ParseUint`: the text without its one
leading sign, if it has one. -/
def unsignedPart (t : List Char) : List Char :=
  match t with
  | [] => []
  | c :: cs => if c == '+' ∨ c == '-' then cs else c :: cs

/-- The text begins with a minus sign. -/
def hasMinus (t : List Char) : Bool :=
  match t with
  | [] => false
  | c :: _ => c == '-'

/-- The part of `ParseInt` that follows the call of `ParseUint`, for the sign
flag `neg` and the pair `ParseUint` returned. -/
def finishParseInt (neg : Bool) (res : Nat × Option NumError) : Int × Option NumError :=
  match res with
  | (_, some NumError.ErrSyntax) => (0, some NumError.ErrSyntax)
  | (un, _) =>
    if neg = false ∧ 2 ^ 63 ≤ un then (2 ^ 63 - 1, some NumError.ErrRange)
    else if neg = true ∧ 2 ^ 63 < un then (-(2 ^ 63), some NumError.ErrRange)
    else (if neg then wrapInt (-(wrapInt (un : Int))) else wrapInt (un : Int), none)

/-! ## Fixtures for concrete runs -/

/-- A backend with no data: every query succeeds with no rows. -/
def emptyBackend : Backend String String Unit :=
  { refSeqWithSeq := fun _ _ _ _ => { rows := [], err := none }
    simpleFeat := fun _ _ _ _ _ => { rows := [], err := none }
    soTypes := fun _ => { rows := [], err := none }
    refSeq := fun _ => { rows := [], err := none } }

/-- A backend whose every query fails. -/
def downBackend : Backend String String Unit :=
  { refSeqWithSeq := fun _ _ _ _ => { rows := [], err := some "connection refused" }
    simpleFeat := fun _ _ _ _ _ => { rows := [], err := some "connection refused" }
    soTypes := fun _ => { rows := [], err := some "connection refused" }
    refSeq := fun _ => { rows := [], err := some "connection refused" } }

/-- A request on `/link/{organism}/features/{refseq}` with the given form
values. -/
def rangeRequest (organism refseq : String) (form : List (String × String)) : Request :=
  { form := form.map (fun kv => (kv.1, [kv.2])),
    vars := [("organism", organism), ("refseq", refseq)] }

/-- A backend holding one reference sequence of 500 bases: whatever range is
asked for, the sequence query yields that one row, spanning `[0, 500)`. -/
def shortSeqBackend : Backend String String Unit :=
  { refSeqWithSeq := fun _ _ _ _ =>
      { rows := [{ Start := 0, End := 500, rest := String.mk (List.replicate 500 'A') }],
        err := none }
    simpleFeat := fun _ _ _ _ _ => { rows := [], err := none }
    soTypes := fun _ => { rows := [], err := none }
    refSeq := fun _ => { rows := [], err := none } }

/-- The `Label` field of a track, whichever struct it is. -/
def Track.Label : Track → String
  | Track.seq t => t.Label
  | Track.feat t => t.Label

/-- The labels of the tracks in each track list written to the body. -/
def trackLabels {ρ φ π : Type} (res : Result ρ φ π) : List (List String) :=
  res.w.body.map (fun p =>
    match p with
    | Payload.trackList data => data.Tracks.elems.map Track.Label
    | _ => [])

/-- A backend whose feature-type query yields `gene` and `exon`, in that
order. -/
def geneExonBackend : Backend String String Unit :=
  { refSeqWithSeq := fun _ _ _ _ => { rows := [], err := none }
    simpleFeat := fun _ _ _ _ _ => { rows := [], err := none }
    soTypes := fun _ =>
      { rows := [{ Type_ := "gene" }, { Type_ := "exon" }], err := none }
    refSeq := fun _ => { rows := [], err := none } }

/-- A backend with two reference sequences and two features. -/
def sampleBackend : Backend String String Unit :=
  { refSeqWithSeq := fun _ _ _ _ => { rows := [], err := none }
    simpleFeat := fun _ _ _ _ _ =>
      { rows := [{ rest := "gene-1", Subfeatures := none },
          { rest := "gene-2", Subfeatures := some [()] }],
        err := none }
    soTypes := fun _ => { rows := [], err := none }
    refSeq := fun _ =>
      { rows := [{ Name := "chr1", Start := 0, End := 0, Length := 500, SeqChunkSize := 0 },
          { Name := "chr2", Start := 0, End := 7, Length := 30000, SeqChunkSize := 1 }],
        err := none } }

/-- A backend that answers the sequence query with one row whose `rest`
column is the argument list it was asked with. -/
def probeBackend : Backend (String × String × Int × Int) String Unit :=
  { refSeqWithSeq := fun organism refseq a3 a4 =>
      { rows := [{ Start := 0, End := 0, rest := (organism, refseq, a3, a4) }], err := none }
    simpleFeat := fun _ _ _ _ _ => { rows := [], err := none }
    soTypes := fun _ => { rows := [], err := none }
    refSeq := fun _ => { rows := [], err := none } }

/-- A backend whose reads break off after the first row: each query delivers
one row and then an error. -/
def flakyBackend : Backend String String Unit :=
  { refSeqWithSeq := fun _ _ _ _ =>
      { rows := [{ Start := 0, End := 500, rest := "ACGT" }], err := some "unexpected EOF" }
    simpleFeat := fun _ _ _ _ _ =>
      { rows := [{ rest := "gene-1", Subfeatures := none }], err := some "unexpected EOF" }
    soTypes := fun _ => { rows := [{ Type_ := "gene" }], err := some "unexpected EOF" }
    refSeq := fun _ =>
      { rows := [{ Name := "chr1", Start := 0, End := 0, Length := 500, SeqChunkSize := 0 }],
        err := some "unexpected EOF" } }

/-! ## Lemmas on the loops -/

theorem updateAt_take_drop {α : Type} (f : α → α) (xs : List α) (n : Nat)
    (h : n < xs.length) :
    updateAt f n ((xs.take n).map f ++ xs.drop n)
      = (xs.take (n + 1)).map f ++ xs.drop (n + 1) := by
  induction xs generalizing n with
  | nil => simp at h
  | cons x xs ih =>
    cases n with
    | zero => simp [updateAt]
    | succ n =>
      simp only [List.length_cons, Nat.add_lt_add_iff_right] at h
      simpa [updateAt] using ih n h

theorem foldl_range_updateAt {α : Type} (f : α → α) (xs : List α) (n : Nat)
    (h : n ≤ xs.length) :
    (List.range n).foldl (fun acc idx => updateAt f idx acc) xs
      = (xs.take n).map f ++ xs.drop n := by
  induction n with
  | zero => simp
  | succ n ih =>
    rw [List.range_succ, List.foldl_append, ih (Nat.le_of_succ_le h)]
    simpa using updateAt_take_drop f xs n h

theorem forRange_some {α : Type} (f : α → α) (xs : List α) :
    forRange f (some xs) = some (xs.map f) := by
  simp [forRange, foldl_range_updateAt f xs xs.length (Nat.le_refl _)]

theorem foldl_append_some {α : Type} (rows xs : List α) :
    rows.foldl Slice.append (some xs) = some (xs ++ rows) := by
  induction rows generalizing xs with
  | nil => simp
  | cons r rows ih => simp [List.foldl_cons, Slice.append, Slice.elems, ih]

theorem foldl_append_map_some {α β : Type} (g : α → β) (l : List α) (xs : List β) :
    l.foldl (fun acc x => Slice.append acc (g x)) (some xs) = some (xs ++ l.map g) := by
  induction l generalizing xs with
  | nil => simp
  | cons a l ih =>
    rw [List.foldl_cons]
    have h : Slice.append (some xs) (g a) = some (xs ++ [g a]) := rfl
    rw [h, ih]
    simp

section Theorems

variable {ρ φ π : Type}

theorem Select_some {α : Type} (xs : List α) (q : Query) (res : Fetched α) :
    Select (some xs) q res = { dest := some (xs ++ res.rows), err := res.err, query := q } := by
  simp [Select, foldl_append_some]

theorem sequenceHandler_eq (env : Env ρ φ π) (w : ResponseWriter ρ φ π) (r : Request)
    (organism refseq : String) (start end_ : Int) :
    sequenceHandler env w r organism refseq start end_
      = match (env.db.refSeqWithSeq organism refseq start (intSub end_ start)).err with
        | some _ =>
          { w := w,
            queries := [Query.refSeqWithSeqQuery organism refseq start (intSub end_ start)],
            panicked := true }
        | none =>
          { w := (okJSON w).Write (Payload.sequences
              { Features := some
                  ((env.db.refSeqWithSeq organism refseq start (intSub end_ start)).rows.map
                    (fun x => { x with Start := start, End := end_ })) }),
            queries := [Query.refSeqWithSeqQuery organism refseq start (intSub end_ start)],
            panicked := env.encodeFails } := by
  unfold sequenceHandler selectRefSeqWithSeq
  simp only [Select_some, List.nil_append, forRange_some, encodeOrPanic]

theorem featureHandler_eq (env : Env ρ φ π) (w : ResponseWriter ρ φ π) (r : Request)
    (organism refseq : String) (start end_ : Int) :
    featureHandler env w r organism refseq start end_
      = { w := (okJSON w).Write (Payload.features
            { Features := some
                ((env.db.simpleFeat organism refseq (r.formGet "soType") start end_).rows.map
                  (fun x => { x with Subfeatures := some [] })) }),
          queries := [Query.simpleFeatQuery organism refseq (r.formGet "soType") start end_],
          panicked := env.encodeFails } := by
  unfold featureHandler selectSimpleFeat
  simp only [Select_some, List.nil_append, forRange_some, encodeOrPanic]

theorem sequenceHandler_queries (env : Env ρ φ π) (w : ResponseWriter ρ φ π) (r : Request)
    (organism refseq : String) (start end_ : Int) :
    (sequenceHandler env w r organism refseq start end_).queries
      = [Query.refSeqWithSeqQuery organism refseq start (intSub end_ start)] := by
  rw [sequenceHandler_eq]
  cases (env.db.refSeqWithSeq organism refseq start (intSub end_ start)).err <;> rfl

theorem featureHandler_queries (env : Env ρ φ π) (w : ResponseWriter ρ φ π) (r : Request)
    (organism refseq : String) (start end_ : Int) :
    (featureHandler env w r organism refseq start end_).queries
      = [Query.simpleFeatQuery organism refseq (r.formGet "soType") start end_] := by
  rw [featureHandler_eq]

theorem okJSON_status_fresh :
    (okJSON (ResponseWriter.fresh : ResponseWriter ρ φ π)).status = some StatusOK := by
  simp [okJSON, ResponseWriter.WriteHeader, ResponseWriter.setHeader, ResponseWriter.fresh]

theorem okJSON_body_fresh :
    (okJSON (ResponseWriter.fresh : ResponseWriter ρ φ π)).body = [] := by
  simp [okJSON, ResponseWriter.WriteHeader, ResponseWriter.setHeader, ResponseWriter.fresh]

theorem notOkJSON_status_fresh :
    (notOkJSON (ResponseWriter.fresh : ResponseWriter ρ φ π)).status
      = some StatusBadRequest := by
  simp [notOkJSON, ResponseWriter.WriteHeader, ResponseWriter.setHeader, ResponseWriter.fresh]

theorem notOkJSON_body_fresh :
    (notOkJSON (ResponseWriter.fresh : ResponseWriter ρ φ π)).body = [] := by
  simp [notOkJSON, ResponseWriter.WriteHeader, ResponseWriter.setHeader, ResponseWriter.fresh]

theorem sequenceHandler_status_ne (env : Env ρ φ π) (r : Request)
    (organism refseq : String) (start end_ : Int) :
    (sequenceHandler env ResponseWriter.fresh r organism refseq start end_).w.status
      ≠ some StatusBadRequest := by
  rw [sequenceHandler_eq]
  cases (env.db.refSeqWithSeq organism refseq start (intSub end_ start)).err with
  | none =>
    simp [ResponseWriter.Write, okJSON_status_fresh, StatusOK, StatusBadRequest]
  | some e => simp [ResponseWriter.fresh]

/-- C1: on a fresh writer `featureSeqHandler` ends with status 400, an empty
body and no backend query exactly when the parsed `end` is below the parsed
`start`; otherwise (so also when `start == end`) the result is that of the
sequence path or of the feature path, one backend query is made and the
status is not 400. -/
theorem featureSeqHandler_badRequest_iff (env : Env ρ φ π) (r : Request) :
    ((featureSeqHandler env ResponseWriter.fresh r).w.status = some StatusBadRequest
        ∧ (featureSeqHandler env ResponseWriter.fresh r).w.body = []
        ∧ (featureSeqHandler env ResponseWriter.fresh r).queries = []
      ↔ requestEnd r < requestStart r)
    ∧ (¬ requestEnd r < requestStart r →
        (featureSeqHandler env ResponseWriter.fresh r
            = sequenceHandler env ResponseWriter.fresh r (r.var "organism")
                (r.var "refseq") (requestStart r) (requestEnd r)
          ∨ featureSeqHandler env ResponseWriter.fresh r
            = featureHandler env ResponseWriter.fresh r (r.var "organism")
                (r.var "refseq") (requestStart r) (requestEnd r))
        ∧ (featureSeqHandler env ResponseWriter.fresh r).queries.length = 1
        ∧ (featureSeqHandler env ResponseWriter.fresh r).w.status
            ≠ some StatusBadRequest) := by
  by_cases h : requestEnd r < requestStart r
  · have hres : featureSeqHandler env ResponseWriter.fresh r
        = { w := notOkJSON ResponseWriter.fresh, queries := [], panicked := false } := by
      simp [featureSeqHandler, h]
    refine ⟨?_, fun hn => absurd h hn⟩
    rw [hres]
    simp [h, notOkJSON_status_fresh, notOkJSON_body_fresh]
  · by_cases hs : r.formGet "sequence" = "true"
    · have hres : featureSeqHandler env ResponseWriter.fresh r
          = sequenceHandler env ResponseWriter.fresh r (r.var "organism")
              (r.var "refseq") (requestStart r) (requestEnd r) := by
        simp [featureSeqHandler, h, hs]
      have hq := sequenceHandler_queries env ResponseWriter.fresh r (r.var "organism")
        (r.var "refseq") (requestStart r) (requestEnd r)
      have hst := sequenceHandler_status_ne env r (r.var "organism")
        (r.var "refseq") (requestStart r) (requestEnd r)
      rw [hres]
      refine ⟨?_, fun _ => ⟨Or.inl rfl, by rw [hq]; rfl, hst⟩⟩
      simp [h, hq]
    · have hres : featureSeqHandler env ResponseWriter.fresh r
          = featureHandler env ResponseWriter.fresh r (r.var "organism")
              (r.var "refseq") (requestStart r) (requestEnd r) := by
        simp [featureSeqHandler, h, hs]
      have hq := featureHandler_queries env ResponseWriter.fresh r (r.var "organism")
        (r.var "refseq") (requestStart r) (requestEnd r)
      have hst : (featureHandler env ResponseWriter.fresh r (r.var "organism")
          (r.var "refseq") (requestStart r) (requestEnd r)).w.status
            ≠ some StatusBadRequest := by
        rw [featureHandler_eq]
        simp [ResponseWriter.Write, okJSON_status_fresh, StatusOK, StatusBadRequest]
      rw [hres]
      refine ⟨?_, fun _ => ⟨Or.inr rfl, by rw [hq]; rfl, hst⟩⟩
      simp [h, hq]

/-- Witness for C1 at `start = end = 5` on the feature path: the request is
accepted, answered with status 200 and one backend query. -/
theorem featureSeqHandler_badRequest_iff_witness :
    ¬ requestEnd (rangeRequest "Oryza" "chr1" [("start", "5"), ("end", "5")])
        < requestStart (rangeRequest "Oryza" "chr1" [("start", "5"), ("end", "5")])
    ∧ requestStart (rangeRequest "Oryza" "chr1" [("start", "5"), ("end", "5")]) = 5
    ∧ (featureSeqHandler { db := emptyBackend, addr := "", encodeFails := false }
        ResponseWriter.fresh
        (rangeRequest "Oryza" "chr1" [("start", "5"), ("end", "5")])).w.status
        ≠ some StatusBadRequest :=
  ⟨by decide, by decide,
    ((featureSeqHandler_badRequest_iff
      { db := emptyBackend, addr := "", encodeFails := false }
      (rangeRequest "Oryza" "chr1" [("start", "5"), ("end", "5")])).2 (by decide)).2.2⟩

theorem wrapInt_inInt (x : Int) : InInt (wrapInt x) := by
  unfold InInt intMin intMax wrapInt
  norm_num
  omega

theorem wrapInt_of_inRange (x : Int) (h1 : -(2 ^ 63) ≤ x) (h2 : x < 2 ^ 63) :
    wrapInt x = x := by
  unfold wrapInt
  norm_num at h1 h2 ⊢
  omega

theorem wrapInt_natCast (v : Nat) (h : v < 2 ^ 63) : wrapInt (v : Int) = v := by
  apply wrapInt_of_inRange
  · have : (0 : Int) ≤ v := Int.natCast_nonneg v
    norm_num
    omega
  · exact_mod_cast h

theorem wrapInt_neg_wrapInt (v : Nat) (h : v ≤ 2 ^ 63) :
    wrapInt (-(wrapInt (v : Int))) = -(v : Int) := by
  have h' : (v : Int) ≤ 2 ^ 63 := by exact_mod_cast h
  unfold wrapInt
  norm_num at h' ⊢
  omega

theorem ParseInt_eq (s : String) (h : s.data ≠ []) :
    ParseInt s = finishParseInt (hasMinus s.data) (ParseUint (unsignedPart s.data)) := by
  unfold ParseInt
  cases hd : s.data with
  | nil => exact absurd hd h
  | cons c cs => rfl

theorem ParseInt_nil (s : String) (h : s.data = []) :
    ParseInt s = (0, some NumError.ErrSyntax) := by
  unfold ParseInt
  rw [h]

theorem finishParseInt_inInt (neg : Bool) (res : Nat × Option NumError) :
    InInt (finishParseInt neg res).1 := by
  have h0 : InInt 0 := by decide
  have hmax : InInt (2 ^ 63 - 1) := by decide
  have hmin : InInt (-(2 ^ 63)) := by decide
  obtain ⟨un, e⟩ := res
  unfold finishParseInt
  rcases e with _ | e
  · simp only
    split_ifs
    · exact hmax
    · exact hmin
    · exact wrapInt_inInt _
    · exact wrapInt_inInt _
  · cases e
    · exact h0
    · simp only
      split_ifs
      · exact hmax
      · exact hmin
      · exact wrapInt_inInt _
      · exact wrapInt_inInt _

theorem Atoi_inInt (s : String) : InInt (Atoi s).1 := by
  unfold Atoi
  by_cases h : s.data = []
  · rw [ParseInt_nil s h]
    decide
  · rw [ParseInt_eq s h]
    exact finishParseInt_inInt _ _

theorem intSub_eq_iff_fits (start end_ : Int) (h1 : start ≤ end_) :
    intSub end_ start = end_ - start ↔ end_ - start ≤ intMax := by
  unfold intSub wrapInt intMax
  norm_num
  omega

/-- Counterexample to C7 as stated: the request
`start=-9223372036854775808&end=0&sequence=true` is accepted, the interval has
length `9223372036854775808`, and the fourth argument the backend is asked
with is `-9223372036854775808`. -/
theorem sequence_length_counterexample :
    (¬ requestEnd (rangeRequest "Oryza" "chr1"
          [("start", "-9223372036854775808"), ("end", "0"), ("sequence", "true")])
        < requestStart (rangeRequest "Oryza" "chr1"
          [("start", "-9223372036854775808"), ("end", "0"), ("sequence", "true")]))
    ∧ requestEnd (rangeRequest "Oryza" "chr1"
          [("start", "-9223372036854775808"), ("end", "0"), ("sequence", "true")])
        - requestStart (rangeRequest "Oryza" "chr1"
          [("start", "-9223372036854775808"), ("end", "0"), ("sequence", "true")])
      = 9223372036854775808
    ∧ (featureSeqHandler { db := probeBackend, addr := "", encodeFails := false }
        ResponseWriter.fresh
        (rangeRequest "Oryza" "chr1"
          [("start", "-9223372036854775808"), ("end", "0"), ("sequence", "true")])).w.body
      = [Payload.sequences
          { Features := some
              [{ Start := -9223372036854775808, End := 0,
                 rest := ("Oryza", "chr1", -9223372036854775808, -9223372036854775808) }] }] := by
  refine ⟨by decide, by decide, by decide⟩

/-- C7, amended: an accepted request with `sequence=true` asks the backend
once, with the arguments `(organism, refseq, start, end - start)` where the
difference is Go's wrapping `int` subtraction, and the response is built from
what the backend delivers for exactly these arguments.  The fourth argument
is the length of `[start, end)` exactly when that length is at most
`2^63 - 1`, which is so whenever `start` is not negative; it then differs from
the absolute `end` unless `start` is 0. -/
theorem featureSeqHandler_sequence_query (env : Env ρ φ π) (r : Request)
    (hacc : ¬ requestEnd r < requestStart r) (hseq : r.formGet "sequence" = "true") :
    featureSeqHandler env ResponseWriter.fresh r
      = (match (env.db.refSeqWithSeq (r.var "organism") (r.var "refseq") (requestStart r)
            (intSub (requestEnd r) (requestStart r))).err with
        | some _ =>
          { w := ResponseWriter.fresh,
            queries := [Query.refSeqWithSeqQuery (r.var "organism") (r.var "refseq")
              (requestStart r) (intSub (requestEnd r) (requestStart r))],
            panicked := true }
        | none =>
          { w := (okJSON ResponseWriter.fresh).Write (Payload.sequences
              { Features := some
                  ((env.db.refSeqWithSeq (r.var "organism") (r.var "refseq") (requestStart r)
                      (intSub (requestEnd r) (requestStart r))).rows.map
                    (fun x => { x with Start := requestStart r, End := requestEnd r })) }),
            queries := [Query.refSeqWithSeqQuery (r.var "organism") (r.var "refseq")
              (requestStart r) (intSub (requestEnd r) (requestStart r))],
            panicked := env.encodeFails })
    ∧ (featureSeqHandler env ResponseWriter.fresh r).queries
      = [Query.refSeqWithSeqQuery (r.var "organism") (r.var "refseq") (requestStart r)
          (intSub (requestEnd r) (requestStart r))]
    ∧ (intSub (requestEnd r) (requestStart r) = requestEnd r - requestStart r
        ↔ requestEnd r - requestStart r ≤ intMax)
    ∧ (0 ≤ requestStart r →
        intSub (requestEnd r) (requestStart r) = requestEnd r - requestStart r)
    ∧ (requestStart r ≠ 0 → requestEnd r - requestStart r ≤ intMax →
        intSub (requestEnd r) (requestStart r) ≠ requestEnd r) := by
  have hres : featureSeqHandler env ResponseWriter.fresh r
      = sequenceHandler env ResponseWriter.fresh r (r.var "organism")
          (r.var "refseq") (requestStart r) (requestEnd r) := by
    simp [featureSeqHandler, hacc, hseq]
  have hiff := intSub_eq_iff_fits (requestStart r) (requestEnd r) (not_lt.mp hacc)
  refine ⟨?_, ?_, hiff, fun h0 => ?_, fun h0 hfit => ?_⟩
  · rw [hres, sequenceHandler_eq]
  · rw [hres, sequenceHandler_queries]
  · apply hiff.mpr
    have he : InInt (requestEnd r) := Atoi_inInt _
    unfold InInt at he
    omega
  · rw [hiff.mpr hfit]
    omega

/-- Witness for C7: `start=100&end=250&sequence=true` is accepted, and the
backend is asked with `(Oryza, chr1, 100, 150)`: the row it answers with
carries these arguments into the response. -/
theorem featureSeqHandler_sequence_query_witness :
    (¬ requestEnd (rangeRequest "Oryza" "chr1"
          [("start", "100"), ("end", "250"), ("sequence", "true")])
        < requestStart (rangeRequest "Oryza" "chr1"
          [("start", "100"), ("end", "250"), ("sequence", "true")]))
    ∧ featureSeqHandler { db := probeBackend, addr := "", encodeFails := false }
        ResponseWriter.fresh
        (rangeRequest "Oryza" "chr1"
          [("start", "100"), ("end", "250"), ("sequence", "true")])
      = { w := (okJSON ResponseWriter.fresh).Write (Payload.sequences
            { Features := some
                [{ Start := 100, End := 250, rest := ("Oryza", "chr1", 100, 150) }] }),
          queries := [Query.refSeqWithSeqQuery "Oryza" "chr1" 100 150],
          panicked := false } :=
  ⟨by decide,
    ((featureSeqHandler_sequence_query
      { db := probeBackend, addr := "", encodeFails := false }
      (rangeRequest "Oryza" "chr1" [("start", "100"), ("end", "250"), ("sequence", "true")])
      (by decide) (by decide)).1).trans (by decide)⟩

/-- Counterexample to C10 as stated: the request `start=-1`,
`end=9223372036854775807`, `sequence=true` passes the range check, and the
length handed to the backend is `-9223372036854775808`. -/
theorem length_negative_counterexample :
    InInt (-1) ∧ InInt 9223372036854775807
    ∧ ¬ requestEnd (rangeRequest "Oryza" "chr1"
          [("start", "-1"), ("end", "9223372036854775807"), ("sequence", "true")])
        < requestStart (rangeRequest "Oryza" "chr1"
          [("start", "-1"), ("end", "9223372036854775807"), ("sequence", "true")])
    ∧ (featureSeqHandler { db := emptyBackend, addr := "", encodeFails := false }
        ResponseWriter.fresh
        (rangeRequest "Oryza" "chr1"
          [("start", "-1"), ("end", "9223372036854775807"), ("sequence", "true")])).queries
      = [Query.refSeqWithSeqQuery "Oryza" "chr1" (-1) (-9223372036854775808)]
    ∧ intSub 9223372036854775807 (-1) < 0 := by
  refine ⟨by decide, by decide, by decide, by decide, by decide⟩

/-- C10, amended: for machine integers that pass the range check, the wrapped
length `end - start` is non-negative exactly when the true difference is at
most `2^63 - 1`, and then it equals the true difference; this holds in
particular whenever `start` is not negative. -/
theorem intSub_nonneg_iff (start end_ : Int) (hs : InInt start) (he : InInt end_)
    (hacc : ¬ end_ < start) :
    (0 ≤ intSub end_ start ↔ end_ - start ≤ intMax)
    ∧ (end_ - start ≤ intMax → intSub end_ start = end_ - start)
    ∧ (0 ≤ start → 0 ≤ intSub end_ start) := by
  unfold InInt intMin intMax at hs he
  unfold intSub wrapInt intMax
  norm_num at hs he ⊢
  omega

/-- Witness for the amended C10 at `start = 100`, `end = 250`. -/
theorem intSub_nonneg_iff_witness :
    InInt 100 ∧ InInt 250 ∧ ¬ (250 : Int) < 100 ∧ intSub 250 100 = 150 :=
  ⟨by decide, by decide, by decide,
    ((intSub_nonneg_iff 100 250 (by decide) (by decide) (by decide)).2.1 (by decide)).trans
      (by decide)⟩

theorem le_decValue (cs : List Char) (n : Nat) : n ≤ decValue cs n := by
  induction cs generalizing n with
  | nil => exact Nat.le_refl n
  | cons c cs ih =>
    unfold decValue
    exact Nat.le_trans (by omega) (ih _)

theorem digitVal_of_isDigit (c : Char) (h : IsDigit c) :
    digitVal c = some (c.toNat - 48) := by
  unfold IsDigit at h
  simp [digitVal, h.1, h.2]

theorem digitVal_nondigit (c : Char) (h : ¬ IsDigit c) :
    digitVal c = none ∨ ∃ d, digitVal c = some d ∧ 10 ≤ d := by
  unfold IsDigit at h
  simp only [digitVal, h, if_false]
  split_ifs with h1
  · exact Or.inr ⟨_, rfl, by omega⟩
  · exact Or.inl rfl

theorem parseUintLoop_nondigit (c : Char) (rest : List Char) (n : Nat) (h : ¬ IsDigit c) :
    parseUintLoop (c :: rest) n = (0, some NumError.ErrSyntax) := by
  rw [parseUintLoop]
  rcases digitVal_nondigit c h with h0 | ⟨d, hd, h10⟩
  · rw [h0]
  · rw [hd]
    simp only [h10, if_true]

theorem parseUintLoop_append (ds tail : List Char) (n : Nat) (hd : ∀ c ∈ ds, IsDigit c)
    (hn : n < 2 ^ 64) :
    parseUintLoop (ds ++ tail) n
      = if decValue ds n < 2 ^ 64 then parseUintLoop tail (decValue ds n)
        else (uintMaxVal, some NumError.ErrRange) := by
  induction ds generalizing n with
  | nil =>
    rw [List.nil_append, decValue, if_pos hn]
  | cons c cs ih =>
    have hc : IsDigit c := hd c (List.mem_cons_self c cs)
    have hcs : ∀ x ∈ cs, IsDigit x := fun x hx => hd x (List.mem_cons_of_mem c hx)
    have hd10 : ¬ 10 ≤ c.toNat - 48 := by unfold IsDigit at hc; omega
    have hle := le_decValue cs (n * 10 + (c.toNat - 48))
    rw [List.cons_append, parseUintLoop, digitVal_of_isDigit c hc]
    simp only [hd10, if_false]
    rw [decValue]
    have hpow : (2 : Nat) ^ 64 = 18446744073709551616 := by norm_num
    have hcut : uintCutoff = 1844674407370955162 := by unfold uintCutoff; norm_num
    have hmax : uintMaxVal = 18446744073709551615 := by unfold uintMaxVal; norm_num
    rw [hpow] at hn ⊢
    rw [hcut]
    by_cases h1 : 1844674407370955162 ≤ n
    · have h2 : ¬ decValue cs (n * 10 + (c.toNat - 48)) < 18446744073709551616 := by omega
      rw [if_pos h1, if_neg h2]
    · rw [if_neg h1]
      have h10 : n * 10 % 18446744073709551616 = n * 10 := Nat.mod_eq_of_lt (by omega)
      simp only [h10]
      by_cases h2 : n * 10 + (c.toNat - 48) < 18446744073709551616
      · rw [Nat.mod_eq_of_lt h2]
        have h3 : ¬ (n * 10 + (c.toNat - 48) < n * 10
            ∨ uintMaxVal < n * 10 + (c.toNat - 48)) := by rw [hmax]; omega
        rw [if_neg h3]
        have := ih (n * 10 + (c.toNat - 48)) hcs (by rw [hpow]; exact h2)
        rw [hpow] at this
        exact this
      · have h3 : (n * 10 + (c.toNat - 48)) % 18446744073709551616 < n * 10
            ∨ uintMaxVal < (n * 10 + (c.toNat - 48)) % 18446744073709551616 := by
          left; omega
        have h4 : ¬ decValue cs (n * 10 + (c.toNat - 48)) < 18446744073709551616 := by omega
        rw [if_pos h3, if_neg h4]

theorem ParseUint_of_ne_nil (s : List Char) (h : s ≠ []) : ParseUint s = parseUintLoop s 0 := by
  cases s with
  | nil => exact absurd rfl h
  | cons c cs => rfl

theorem decValue_nil_zero_lt : decValue [] 0 < 2 ^ 64 := by
  unfold decValue
  norm_num

/-- Text whose unsigned part has a character that is no digit, after digits
that stay below `2^64`: `ParseUint` reports a syntax error. -/
theorem ParseUint_syntax (ds : List Char) (c : Char) (rest : List Char)
    (hd : ∀ x ∈ ds, IsDigit x) (hc : ¬ IsDigit c) (hv : decValue ds 0 < 2 ^ 64) :
    ParseUint (ds ++ c :: rest) = (0, some NumError.ErrSyntax) := by
  rw [ParseUint_of_ne_nil _ (by simp), parseUintLoop_append ds (c :: rest) 0 hd (by norm_num),
    if_pos hv, parseUintLoop_nondigit c rest _ hc]

/-- Text whose leading digits reach `2^64`: `ParseUint` reports a range error
whatever follows. -/
theorem ParseUint_overflow (ds rest : List Char) (hd : ∀ x ∈ ds, IsDigit x)
    (hv : 2 ^ 64 ≤ decValue ds 0) :
    ParseUint (ds ++ rest) = (uintMaxVal, some NumError.ErrRange) := by
  have hne : ds ++ rest ≠ [] := by
    intro h
    have hds : ds = [] := (List.append_eq_nil.mp h).1
    subst hds
    have := decValue_nil_zero_lt
    omega
  rw [ParseUint_of_ne_nil _ hne, parseUintLoop_append ds rest 0 hd (by norm_num),
    if_neg (Nat.not_lt.mpr hv)]

/-- Digits only: `ParseUint` returns their value when it is below `2^64`. -/
theorem ParseUint_digits (ds : List Char) (hne : ds ≠ []) (hd : ∀ c ∈ ds, IsDigit c) :
    ParseUint ds
      = if decValue ds 0 < 2 ^ 64 then (decValue ds 0, none)
        else (uintMaxVal, some NumError.ErrRange) := by
  have h := parseUintLoop_append ds [] 0 hd (by norm_num)
  rw [List.append_nil] at h
  rw [ParseUint_of_ne_nil ds hne, h]
  rfl

theorem finishParseInt_overflow (neg : Bool) :
    finishParseInt neg (uintMaxVal, some NumError.ErrRange)
      = (if neg then intMin else intMax, some NumError.ErrRange) := by
  cases neg <;> decide

theorem finishParseInt_value (neg : Bool) (v : Nat) :
    finishParseInt neg (v, none)
      = if neg then
          (if v ≤ 2 ^ 63 then (-(v : Int), none) else (intMin, some NumError.ErrRange))
        else (if v < 2 ^ 63 then ((v : Int), none) else (intMax, some NumError.ErrRange)) := by
  unfold finishParseInt
  cases neg with
  | false =>
    simp only [true_and, Bool.false_eq_true, false_and, if_false]
    by_cases h : v < 2 ^ 63
    · rw [if_neg (Nat.not_le.mpr h), if_pos h, wrapInt_natCast v h]
    · rw [if_pos (Nat.not_lt.mp h), if_neg h]
      rfl
  | true =>
    simp only [Bool.true_eq_false, false_and, if_false, true_and, if_true]
    by_cases h : v ≤ 2 ^ 63
    · rw [if_neg (Nat.not_lt.mpr h), if_pos h, wrapInt_neg_wrapInt v h]
    · rw [if_pos (Nat.not_le.mp h), if_neg h]
      rfl

theorem unsignedPart_ne_nil (t : List Char) (h : unsignedPart t ≠ []) : t ≠ [] := by
  rintro rfl
  exact h rfl

/-- Empty text, or a sign with nothing after it: a syntax error with value 0. -/
theorem Atoi_empty (s : String) (h : unsignedPart s.data = []) :
    Atoi s = (0, some NumError.ErrSyntax) := by
  unfold Atoi
  by_cases hs : s.data = []
  · exact ParseInt_nil s hs
  · rw [ParseInt_eq s hs, h]
    rfl

/-- A character that is no digit, reached before the digits exceed `2^64 - 1`:
a syntax error with value 0. -/
theorem Atoi_nondigit (s : String) (ds : List Char) (c : Char) (rest : List Char)
    (hu : unsignedPart s.data = ds ++ c :: rest) (hd : ∀ x ∈ ds, IsDigit x)
    (hc : ¬ IsDigit c) (hv : decValue ds 0 < 2 ^ 64) :
    Atoi s = (0, some NumError.ErrSyntax) := by
  unfold Atoi
  have hs : s.data ≠ [] := unsignedPart_ne_nil _ (by rw [hu]; simp)
  rw [ParseInt_eq s hs, hu, ParseUint_syntax ds c rest hd hc hv]
  rfl

/-- Leading digits that reach `2^64`: a range error with the bound of the
sign, whatever follows the digits. -/
theorem Atoi_overflow (s : String) (ds rest : List Char)
    (hu : unsignedPart s.data = ds ++ rest) (hd : ∀ x ∈ ds, IsDigit x)
    (hv : 2 ^ 64 ≤ decValue ds 0) :
    Atoi s = (if hasMinus s.data then intMin else intMax, some NumError.ErrRange) := by
  unfold Atoi
  have hne : ds ++ rest ≠ [] := by
    intro h
    have hds : ds = [] := (List.append_eq_nil.mp h).1
    subst hds
    have := decValue_nil_zero_lt
    omega
  have hs : s.data ≠ [] := unsignedPart_ne_nil _ (by rw [hu]; exact hne)
  rw [ParseInt_eq s hs, hu, ParseUint_overflow ds rest hd hv, finishParseInt_overflow]

/-- A decimal numeral with or without a sign: its value when that fits an
`int`, and otherwise a range error with the bound of the sign. -/
theorem Atoi_numeral (s : String) (hne : unsignedPart s.data ≠ [])
    (hd : ∀ x ∈ unsignedPart s.data, IsDigit x) :
    Atoi s
      = if hasMinus s.data then
          (if decValue (unsignedPart s.data) 0 ≤ 2 ^ 63
            then (-(decValue (unsignedPart s.data) 0 : Int), none)
            else (intMin, some NumError.ErrRange))
        else
          (if decValue (unsignedPart s.data) 0 < 2 ^ 63
            then ((decValue (unsignedPart s.data) 0 : Int), none)
            else (intMax, some NumError.ErrRange)) := by
  unfold Atoi
  have hs : s.data ≠ [] := unsignedPart_ne_nil _ hne
  rw [ParseInt_eq s hs, ParseUint_digits _ hne hd]
  by_cases h64 : decValue (unsignedPart s.data) 0 < 2 ^ 64
  · rw [if_pos h64, finishParseInt_value]
  · rw [if_neg h64, finishParseInt_overflow]
    have h1 : ¬ decValue (unsignedPart s.data) 0 ≤ 2 ^ 63 := by
      have : (2 : Nat) ^ 63 < 2 ^ 64 := by norm_num
      omega
    have h2 : ¬ decValue (unsignedPart s.data) 0 < 2 ^ 63 := by
      have : (2 : Nat) ^ 63 < 2 ^ 64 := by norm_num
      omega
    rw [if_neg h1, if_neg h2]
    cases hasMinus s.data <;> rfl

/-- Every text is empty, or digits followed by a character that is no digit,
or digits only. -/
theorem digit_split (u : List Char) :
    u = []
    ∨ (∃ ds c rest, (∀ x ∈ ds, IsDigit x) ∧ ¬ IsDigit c ∧ u = ds ++ c :: rest)
    ∨ (u ≠ [] ∧ ∀ x ∈ u, IsDigit x) := by
  induction u with
  | nil => exact Or.inl rfl
  | cons a u ih =>
    right
    by_cases ha : IsDigit a
    · rcases ih with h | ⟨ds, c, rest, hd, hc, hu⟩ | ⟨_, hall⟩
      · subst h
        exact Or.inr ⟨by simp, by simpa using ha⟩
      · refine Or.inl ⟨a :: ds, c, rest, ?_, hc, by rw [hu]; rfl⟩
        intro x hx
        rcases List.mem_cons.mp hx with rfl | hx
        · exact ha
        · exact hd x hx
      · refine Or.inr ⟨by simp, ?_⟩
        intro x hx
        rcases List.mem_cons.mp hx with rfl | hx
        · exact ha
        · exact hall x hx
    · exact Or.inl ⟨[], a, u, by simp, ha, rfl⟩

/-- Counterexample to C8 as stated: the text `9223372036854775808` fails to
parse (range error), and the `start` that `featureSeqHandler` uses is
`9223372036854775807`, not 0; with `end=5` the request is answered with
status 400, which a `start` of 0 would not be. -/
theorem requestStart_overflow_counterexample :
    (Atoi "9223372036854775808").2 = some NumError.ErrRange
    ∧ requestStart (rangeRequest "Oryza" "chr1"
        [("start", "9223372036854775808"), ("end", "5")]) = 9223372036854775807
    ∧ requestStart (rangeRequest "Oryza" "chr1"
        [("start", "9223372036854775808"), ("end", "5")]) ≠ 0
    ∧ (featureSeqHandler { db := emptyBackend, addr := "", encodeFails := false }
        ResponseWriter.fresh
        (rangeRequest "Oryza" "chr1"
          [("start", "9223372036854775808"), ("end", "5")])).w.status
        = some StatusBadRequest
    ∧ (featureSeqHandler { db := emptyBackend, addr := "", encodeFails := false }
        ResponseWriter.fresh
        (rangeRequest "Oryza" "chr1" [("start", "0"), ("end", "5")])).w.status
        = some StatusOK := by
  refine ⟨by decide, by decide, by decide, by decide, by decide⟩

/-- C8, amended: the coordinate `featureSeqHandler` uses for `start` or `end`
is the value of `Atoi` on the request text, and for text that fails to parse
that value is 0 on a syntax error and the `int` bound of the sign on a range
error.  Writing `u` for the text without its one optional leading sign: if
`u` is empty (empty text or a bare sign), or if `u` reaches a character that
is no digit while the digits before it stay below `2^64`, the result is a
syntax error with value 0; if the leading digits of `u` reach `2^64`,
whatever follows, or `u` is a decimal numeral outside the `int` range, the
result is a range error with value `-2^63` after a minus sign and `2^63 - 1`
otherwise; a decimal numeral inside the range parses to its value.  Every
text falls under one of these cases. -/
theorem requestCoords_on_parse_failure (r : Request) (key : String) (v : Int)
    (hv : (key = "start" ∧ v = requestStart r) ∨ (key = "end" ∧ v = requestEnd r)) :
    v = (Atoi (r.formGet key)).1
    ∧ (unsignedPart (r.formGet key).data = [] →
        Atoi (r.formGet key) = (0, some NumError.ErrSyntax))
    ∧ (∀ ds c rest, (∀ x ∈ ds, IsDigit x) → ¬ IsDigit c →
        unsignedPart (r.formGet key).data = ds ++ c :: rest → decValue ds 0 < 2 ^ 64 →
        Atoi (r.formGet key) = (0, some NumError.ErrSyntax))
    ∧ (∀ ds rest, (∀ x ∈ ds, IsDigit x) →
        unsignedPart (r.formGet key).data = ds ++ rest → 2 ^ 64 ≤ decValue ds 0 →
        Atoi (r.formGet key)
          = (if hasMinus (r.formGet key).data then intMin else intMax,
              some NumError.ErrRange))
    ∧ (unsignedPart (r.formGet key).data ≠ [] →
        (∀ x ∈ unsignedPart (r.formGet key).data, IsDigit x) →
        Atoi (r.formGet key)
          = if hasMinus (r.formGet key).data then
              (if decValue (unsignedPart (r.formGet key).data) 0 ≤ 2 ^ 63
                then (-(decValue (unsignedPart (r.formGet key).data) 0 : Int), none)
                else (intMin, some NumError.ErrRange))
            else
              (if decValue (unsignedPart (r.formGet key).data) 0 < 2 ^ 63
                then ((decValue (unsignedPart (r.formGet key).data) 0 : Int), none)
                else (intMax, some NumError.ErrRange)))
    ∧ (unsignedPart (r.formGet key).data = []
        ∨ (∃ ds c rest, (∀ x ∈ ds, IsDigit x) ∧ ¬ IsDigit c
            ∧ unsignedPart (r.formGet key).data = ds ++ c :: rest)
        ∨ (unsignedPart (r.formGet key).data ≠ []
            ∧ ∀ x ∈ unsignedPart (r.formGet key).data, IsDigit x)) := by
  refine ⟨?_, Atoi_empty _, ?_, ?_, Atoi_numeral _, digit_split _⟩
  · rcases hv with ⟨rfl, rfl⟩ | ⟨rfl, rfl⟩ <;> rfl
  · intro ds c rest hd hc hu hlt
    exact Atoi_nondigit _ ds c rest hu hd hc hlt
  · intro ds rest hd hu hge
    exact Atoi_overflow _ ds rest hu hd hge

/-- Witness for the amended C8: `start=abc` reaches the character `a`, which
is no digit, before any digit, so the coordinate is 0 with a syntax error. -/
theorem requestCoords_on_parse_failure_witness :
    unsignedPart ((rangeRequest "Oryza" "chr1" [("start", "abc"), ("end", "5")]).formGet
        "start").data = [] ++ 'a' :: ['b', 'c']
    ∧ requestStart (rangeRequest "Oryza" "chr1" [("start", "abc"), ("end", "5")])
      = (Atoi ((rangeRequest "Oryza" "chr1" [("start", "abc"), ("end", "5")]).formGet
          "start")).1
    ∧ Atoi ((rangeRequest "Oryza" "chr1" [("start", "abc"), ("end", "5")]).formGet "start")
      = (0, some NumError.ErrSyntax) :=
  ⟨by decide,
    (requestCoords_on_parse_failure
      (rangeRequest "Oryza" "chr1" [("start", "abc"), ("end", "5")]) "start"
      (requestStart (rangeRequest "Oryza" "chr1" [("start", "abc"), ("end", "5")]))
      (Or.inl ⟨rfl, rfl⟩)).1,
    (requestCoords_on_parse_failure
      (rangeRequest "Oryza" "chr1" [("start", "abc"), ("end", "5")]) "start"
      (requestStart (rangeRequest "Oryza" "chr1" [("start", "abc"), ("end", "5")]))
      (Or.inl ⟨rfl, rfl⟩)).2.2.1 [] 'a' ['b', 'c'] (by simp) (by decide) (by decide)
      (by decide)⟩

/-- C2: when the backend returns the rows `rows` for the sequence query,
`sequenceHandler` hands the encoder one container whose records are the
backend rows in order, each with `Start` and `End` replaced by the requested
`start` and `end` and the other columns untouched; so every record of the
container has `Start = start` and `End = end`, whatever the row carried. -/
theorem sequenceHandler_overwrites_span (env : Env ρ φ π) (r : Request)
    (organism refseq : String) (start end_ : Int) (rows : List (refSeqWithSeqStruct ρ))
    (hrows : env.db.refSeqWithSeq organism refseq start (intSub end_ start)
      = { rows := rows, err := none }) :
    (sequenceHandler env ResponseWriter.fresh r organism refseq start end_).w.body
      = [Payload.sequences
          { Features := some (rows.map (fun x => { x with Start := start, End := end_ })) }]
    ∧ (sequenceHandler env ResponseWriter.fresh r organism refseq start end_).w.status
      = some StatusOK
    ∧ (∀ c, Payload.sequences c
          ∈ (sequenceHandler env ResponseWriter.fresh r organism refseq start end_).w.body →
        c.Features.elems.length = rows.length
        ∧ (∀ x ∈ c.Features.elems, x.Start = start ∧ x.End = end_)
        ∧ c.Features.elems.map (fun x => x.rest) = rows.map (fun x => x.rest)) := by
  have hbody : (sequenceHandler env ResponseWriter.fresh r organism refseq start end_).w.body
      = [Payload.sequences
          { Features := some (rows.map (fun x => { x with Start := start, End := end_ })) }] := by
    rw [sequenceHandler_eq, hrows]
    simp [ResponseWriter.Write, okJSON_body_fresh]
  have hstatus : (sequenceHandler env ResponseWriter.fresh r organism refseq start end_).w.status
      = some StatusOK := by
    rw [sequenceHandler_eq, hrows]
    simp [ResponseWriter.Write, okJSON_status_fresh]
  refine ⟨hbody, hstatus, ?_⟩
  intro c hc
  rw [hbody] at hc
  simp only [List.mem_singleton, Payload.sequences.injEq] at hc
  subst hc
  refine ⟨by simp [Slice.elems], ?_, by simp [Slice.elems, Function.comp_def]⟩
  intro x hx
  simp only [Slice.elems, List.mem_map] at hx
  obtain ⟨y, _, rfl⟩ := hx
  exact ⟨rfl, rfl⟩

/-- Witness for C2: asking for `[0, 1000000)` of a sequence of length 500
gives one record whose `End` is 1000000. -/
theorem sequenceHandler_overwrites_span_witness :
    (sequenceHandler { db := shortSeqBackend, addr := "", encodeFails := false }
        ResponseWriter.fresh (rangeRequest "Oryza" "chr1" []) "Oryza" "chr1" 0 1000000).w.body
      = [Payload.sequences
          { Features := some
              [{ Start := 0, End := 1000000, rest := String.mk (List.replicate 500 'A') }] }] :=
  (sequenceHandler_overwrites_span
    { db := shortSeqBackend, addr := "", encodeFails := false }
    (rangeRequest "Oryza" "chr1" []) "Oryza" "chr1" 0 1000000
    [{ Start := 0, End := 500, rest := String.mk (List.replicate 500 'A') }] rfl).1

/-- C9: when the backend returns the rows `rows` for the feature query (with
or without an error after them), `featureHandler` answers 200 with one container holding the backend rows in
order, each with its `Subfeatures` replaced by the empty non-nil slice and its
other columns untouched, and the feature query is the only query made. -/
theorem featureHandler_flat_features (env : Env ρ φ π) (r : Request)
    (organism refseq : String) (start end_ : Int) (rows : List (SimpleFeature φ π))
    (err : Option String)
    (hrows : env.db.simpleFeat organism refseq (r.formGet "soType") start end_
      = { rows := rows, err := err }) :
    (featureHandler env ResponseWriter.fresh r organism refseq start end_).w.body
      = [Payload.features
          { Features := some (rows.map (fun x => { x with Subfeatures := some [] })) }]
    ∧ (featureHandler env ResponseWriter.fresh r organism refseq start end_).w.status
      = some StatusOK
    ∧ (featureHandler env ResponseWriter.fresh r organism refseq start end_).queries
      = [Query.simpleFeatQuery organism refseq (r.formGet "soType") start end_]
    ∧ (∀ c, Payload.features c
          ∈ (featureHandler env ResponseWriter.fresh r organism refseq start end_).w.body →
        c.Features.elems.length = rows.length
        ∧ (∀ x ∈ c.Features.elems, x.Subfeatures = some [])
        ∧ c.Features.elems.map (fun x => x.rest) = rows.map (fun x => x.rest)) := by
  have hbody : (featureHandler env ResponseWriter.fresh r organism refseq start end_).w.body
      = [Payload.features
          { Features := some (rows.map (fun x => { x with Subfeatures := some [] })) }] := by
    rw [featureHandler_eq, hrows]
    simp [ResponseWriter.Write, okJSON_body_fresh]
  refine ⟨hbody, ?_, featureHandler_queries _ _ _ _ _ _ _, ?_⟩
  · rw [featureHandler_eq]
    simp [ResponseWriter.Write, okJSON_status_fresh]
  · intro c hc
    rw [hbody] at hc
    simp only [List.mem_singleton, Payload.features.injEq] at hc
    subst hc
    refine ⟨by simp [Slice.elems], ?_, by simp [Slice.elems, Function.comp_def]⟩
    intro x hx
    simp only [Slice.elems, List.mem_map] at hx
    obtain ⟨y, _, rfl⟩ := hx
    rfl

/-- Witness for C9: two backend rows, one with a nil and one with a non-empty
`Subfeatures`, come back in order with empty non-nil `Subfeatures`. -/
theorem featureHandler_flat_features_witness :
    (featureHandler { db := sampleBackend, addr := "", encodeFails := false }
        ResponseWriter.fresh (rangeRequest "Oryza" "chr1" []) "Oryza" "chr1" 0 100).w.body
      = [Payload.features
          { Features := some [{ rest := "gene-1", Subfeatures := some [] },
              { rest := "gene-2", Subfeatures := some [] }] }] :=
  (featureHandler_flat_features
    { db := sampleBackend, addr := "", encodeFails := false }
    (rangeRequest "Oryza" "chr1" []) "Oryza" "chr1" 0 100
    [{ rest := "gene-1", Subfeatures := none }, { rest := "gene-2", Subfeatures := some [()] }]
    none rfl).1

theorem refSeqsData_eq (db : Backend ρ φ π) (organism : String) :
    refSeqsData db organism
      = (some ((db.refSeq organism).rows.map
          (fun s => { { s with SeqChunkSize := 20000 } with End := s.Length })),
        [Query.refSeqQuery organism]) := by
  simp [refSeqsData, selectRefSeq, Select_some, forRange_some]

/-- Counterexample to C5 as stated: on a backend whose feature read breaks
off with an error after one row, `featureHandler` answers 200 with a
container whose feature list holds that row. -/
theorem featureHandler_partial_counterexample :
    (flakyBackend.simpleFeat "Oryza" "chr1" "" 10 20).err = some "unexpected EOF"
    ∧ (featureHandler { db := flakyBackend, addr := "", encodeFails := false }
        ResponseWriter.fresh (rangeRequest "Oryza" "chr1" []) "Oryza" "chr1" 10 20).w.status
      = some StatusOK
    ∧ (featureHandler { db := flakyBackend, addr := "", encodeFails := false }
        ResponseWriter.fresh (rangeRequest "Oryza" "chr1" []) "Oryza" "chr1" 10 20).w.body
      = [Payload.features { Features := some [{ rest := "gene-1", Subfeatures := some [] }] }]
    ∧ (featureHandler { db := flakyBackend, addr := "", encodeFails := false }
        ResponseWriter.fresh (rangeRequest "Oryza" "chr1" []) "Oryza" "chr1" 10 20).w.body
      ≠ [Payload.features { Features := some [] }] := by
  refine ⟨by decide, by decide, by decide, by decide⟩

/-- C5, amended: when the backend fetch fails, `featureHandler` still sets
status 200 and hands the encoder a container holding the rows read before the
failure, in order and with empty `Subfeatures` (so an empty feature list when
the fetch failed before its first row), and the failure causes no panic;
`sequenceHandler` panics and leaves the writer untouched: no header, no
status, no body, whatever rows were read. -/
theorem fetch_failure_asymmetry (env : Env ρ φ π) (r : Request)
    (organism refseq : String) (start end_ : Int) :
    (∀ rows e, env.db.simpleFeat organism refseq (r.formGet "soType") start end_
        = { rows := rows, err := some e } →
      (featureHandler env ResponseWriter.fresh r organism refseq start end_).w.status
          = some StatusOK
      ∧ (featureHandler env ResponseWriter.fresh r organism refseq start end_).w.body
          = [Payload.features
              { Features := some (rows.map (fun x => { x with Subfeatures := some [] })) }]
      ∧ (rows = [] →
          (featureHandler env ResponseWriter.fresh r organism refseq start end_).w.body
            = [Payload.features { Features := some [] }])
      ∧ (featureHandler env ResponseWriter.fresh r organism refseq start end_).panicked
          = env.encodeFails)
    ∧ (∀ rows e, env.db.refSeqWithSeq organism refseq start (intSub end_ start)
        = { rows := rows, err := some e } →
      sequenceHandler env ResponseWriter.fresh r organism refseq start end_
        = { w := { header := [], status := none, body := [] },
            queries := [Query.refSeqWithSeqQuery organism refseq start (intSub end_ start)],
            panicked := true }) := by
  constructor
  · intro rows e he
    have hbody : (featureHandler env ResponseWriter.fresh r organism refseq start end_).w.body
        = [Payload.features
            { Features := some (rows.map (fun x => { x with Subfeatures := some [] })) }] := by
      rw [featureHandler_eq, he]
      simp [ResponseWriter.Write, okJSON_body_fresh]
    refine ⟨?_, hbody, ?_, ?_⟩
    · rw [featureHandler_eq]
      simp [ResponseWriter.Write, okJSON_status_fresh]
    · intro h0
      rw [hbody, h0]
      rfl
    · rw [featureHandler_eq]
  · intro rows e he
    rw [sequenceHandler_eq, he]
    rfl

/-- Witness for the amended C5 on a backend whose every query fails before
its first row, for the range `[10, 20)`. -/
theorem fetch_failure_asymmetry_witness :
    (featureHandler { db := downBackend, addr := "", encodeFails := false }
        ResponseWriter.fresh (rangeRequest "Oryza" "chr1" []) "Oryza" "chr1" 10 20).w.body
      = [Payload.features { Features := some [] }]
    ∧ sequenceHandler { db := downBackend, addr := "", encodeFails := false }
        ResponseWriter.fresh (rangeRequest "Oryza" "chr1" []) "Oryza" "chr1" 10 20
      = { w := { header := [], status := none, body := [] },
          queries := [Query.refSeqWithSeqQuery "Oryza" "chr1" 10 (intSub 20 10)],
          panicked := true } :=
  ⟨((fetch_failure_asymmetry { db := downBackend, addr := "", encodeFails := false }
      (rangeRequest "Oryza" "chr1" []) "Oryza" "chr1" 10 20).1 [] "connection refused"
      rfl).2.2.1 rfl,
    (fetch_failure_asymmetry { db := downBackend, addr := "", encodeFails := false }
      (rangeRequest "Oryza" "chr1" []) "Oryza" "chr1" 10 20).2 [] "connection refused" rfl⟩

/-- Counterexample to C6 as stated: on a backend whose reference-sequence
read breaks off with an error after one row, `refSeqsData` returns that row,
not the empty sequence, and `refSeqs` writes it. -/
theorem refSeqsData_partial_counterexample :
    (flakyBackend.refSeq "Oryza").err = some "unexpected EOF"
    ∧ (refSeqsData flakyBackend "Oryza").1
      = some [{ Name := "chr1", Start := 0, End := 500, Length := 500,
                SeqChunkSize := 20000 }]
    ∧ (refSeqsData flakyBackend "Oryza").1 ≠ some []
    ∧ (refSeqs { db := flakyBackend, addr := "", encodeFails := false }
        ResponseWriter.fresh (rangeRequest "Oryza" "" [])).w.body
      = [Payload.refSeqs (some [{ Name := "chr1", Start := 0, End := 500, Length := 500,
                                  SeqChunkSize := 20000 }])] := by
  refine ⟨by decide, by decide, by decide, by decide⟩

/-- C6, amended: when the reference-sequence query fails, `refSeqsData`
returns, without any error, the rows read before the failure with
`SeqChunkSize` and `End` set (so the empty non-nil slice when the query failed
before its first row), and `refSeqs` sets status 200 and hands the encoder
that slice, encoded as a JSON array; the failure causes no panic. -/
theorem refSeqsData_on_failure (env : Env ρ φ π) (r : Request) (rows : List refSeqStruct)
    (e : String)
    (hfail : env.db.refSeq (r.var "organism") = { rows := rows, err := some e }) :
    (refSeqsData env.db (r.var "organism")).1
      = some (rows.map (fun s => { { s with SeqChunkSize := 20000 } with End := s.Length }))
    ∧ (rows = [] → (refSeqsData env.db (r.var "organism")).1 = some [])
    ∧ (refSeqs env ResponseWriter.fresh r).w.status = some StatusOK
    ∧ (refSeqs env ResponseWriter.fresh r).w.body
      = [Payload.refSeqs
          (some (rows.map (fun s => { { s with SeqChunkSize := 20000 } with End := s.Length })))]
    ∧ (rows = [] → (refSeqs env ResponseWriter.fresh r).w.body = [Payload.refSeqs (some [])])
    ∧ (refSeqs env ResponseWriter.fresh r).panicked = env.encodeFails := by
  have h1 : (refSeqsData env.db (r.var "organism")).1
      = some (rows.map (fun s => { { s with SeqChunkSize := 20000 } with End := s.Length })) := by
    rw [refSeqsData_eq, hfail]
  have h2 : (refSeqs env ResponseWriter.fresh r).w.body
      = [Payload.refSeqs
          (some (rows.map
            (fun s => { { s with SeqChunkSize := 20000 } with End := s.Length })))] := by
    simp [refSeqs, h1, encodeOrPanic, ResponseWriter.Write, okJSON_body_fresh]
  refine ⟨h1, ?_, ?_, h2, ?_, ?_⟩
  · intro h0
    rw [h1, h0]
    rfl
  · simp [refSeqs, encodeOrPanic, ResponseWriter.Write, okJSON_status_fresh]
  · intro h0
    rw [h2, h0]
    rfl
  · simp [refSeqs, encodeOrPanic]

/-- Witness for the amended C6 on a backend whose every query fails before
its first row. -/
theorem refSeqsData_on_failure_witness :
    (refSeqs { db := downBackend, addr := "", encodeFails := false }
        ResponseWriter.fresh (rangeRequest "Oryza" "" [])).w.body
      = [Payload.refSeqs (some [])] :=
  (refSeqsData_on_failure { db := downBackend, addr := "", encodeFails := false }
    (rangeRequest "Oryza" "" []) [] "connection refused" rfl).2.2.2.2.1 rfl

/-- C4: every record returned by `refSeqsData` has `End = Length` and
`SeqChunkSize = 20000`; and whatever rows the backend delivers (with or
without an error after them), the result has as many records as there are
rows, in the same order, with the same `Name`, `Start` and `Length`. -/
theorem refSeqsData_invariants (db : Backend ρ φ π) (organism : String) :
    (∀ s ∈ (refSeqsData db organism).1.elems, s.End = s.Length ∧ s.SeqChunkSize = 20000)
    ∧ (∀ rows err, db.refSeq organism = { rows := rows, err := err } →
        (refSeqsData db organism).1.elems.length = rows.length
        ∧ (refSeqsData db organism).1.elems.map (fun s => (s.Name, s.Start, s.Length))
          = rows.map (fun s => (s.Name, s.Start, s.Length))) := by
  constructor
  · intro s hs
    rw [refSeqsData_eq] at hs
    simp only [Slice.elems, List.mem_map] at hs
    obtain ⟨y, _, rfl⟩ := hs
    exact ⟨rfl, rfl⟩
  · intro rows err hdb
    rw [refSeqsData_eq, hdb]
    simp [Slice.elems, Function.comp_def]

/-- Witness for C4: two backend rows with stale `End` and `SeqChunkSize`. -/
theorem refSeqsData_invariants_witness :
    (refSeqsData sampleBackend "Oryza").1.elems.map (fun s => (s.Name, s.Start, s.Length))
      = [("chr1", 0, 500), ("chr2", 0, 30000)]
    ∧ (refSeqsData sampleBackend "Oryza").1.elems.map (fun s => (s.End, s.SeqChunkSize))
      = [(500, 20000), (30000, 20000)] :=
  ⟨((refSeqsData_invariants sampleBackend "Oryza").2 _ none rfl).2, by decide⟩

theorem buildTracks_some (addr organism : String) (cs : List soType) :
    buildTracks addr organism (some cs)
      = some (Track.seq
          { UseAsRefSeqStore := true
            Label := "ref_seq"
            Key := "REST Reference Sequence"
            Type_ := "JBrowse/View/Track/Sequence"
            StoreClass := "JBrowse/Store/SeqFeature/REST"
            BaseURL := addr ++ "/link/" ++ organism ++ "/"
            Query := [("sequence", "true")] }
        :: cs.map (fun c => Track.feat
          { Category := "Generic SO Type Tracks"
            Label := organism ++ "_" ++ c.Type_
            Key := c.Type_
            Query := [("soType", c.Type_)]
            RegionFeatureDensities := true
            Type_ := "JBrowse/View/Track/HTMLFeatures"
            TrackType := "JBrowse/View/Track/HTMLFeatures"
            StoreClass := "JBrowse/Store/SeqFeature/REST" })) := by
  unfold buildTracks
  simp only [Slice.elems]
  have h0 : ∀ x : Track, Slice.append (none : Slice Track) x = some [x] := fun x => rfl
  rw [h0, foldl_append_map_some]
  rfl

theorem listSoTypes_nonNil (db : Backend ρ φ π) (organism : String) :
    (listSoTypes db organism).1 = some (listSoTypes db organism).1.elems := by
  simp [listSoTypes, selectSoType, Select_some, Slice.elems]

/-- C3: for the feature types `c_1 .. c_n` that `listSoTypes` returns for the
organism of the request, `orgTrackListJSON` writes one track list whose
`Tracks` are the `SeqTrack` labelled `ref_seq` with query
`{sequence: "true"}` followed by one `TrackListTrack` per `c_i`, in the
backend's order, with label `organism_c_i`, key `c_i`, query `{soType: c_i}`
and category `Generic SO Type Tracks`: `n + 1` tracks in all.  For the feature
types `gene`, `exon` and the organism `Oryza` the labels are `ref_seq`,
`Oryza_gene`, `Oryza_exon`. -/
theorem orgTrackListJSON_tracks (env : Env ρ φ π) (r : Request) :
    (∃ data : TrackList,
      (orgTrackListJSON env ResponseWriter.fresh r).w.body = [Payload.trackList data]
      ∧ data.Tracks
        = some (Track.seq
            { UseAsRefSeqStore := true
              Label := "ref_seq"
              Key := "REST Reference Sequence"
              Type_ := "JBrowse/View/Track/Sequence"
              StoreClass := "JBrowse/Store/SeqFeature/REST"
              BaseURL := env.addr ++ "/link/" ++ r.var "organism" ++ "/"
              Query := [("sequence", "true")] }
          :: (listSoTypes env.db (r.var "organism")).1.elems.map (fun c => Track.feat
            { Category := "Generic SO Type Tracks"
              Label := r.var "organism" ++ "_" ++ c.Type_
              Key := c.Type_
              Query := [("soType", c.Type_)]
              RegionFeatureDensities := true
              Type_ := "JBrowse/View/Track/HTMLFeatures"
              TrackType := "JBrowse/View/Track/HTMLFeatures"
              StoreClass := "JBrowse/Store/SeqFeature/REST" }))
      ∧ data.Tracks.elems.length = (listSoTypes env.db (r.var "organism")).1.elems.length + 1
      ∧ data.Tracks.elems.map Track.Label
        = "ref_seq" :: (listSoTypes env.db (r.var "organism")).1.elems.map
            (fun c => r.var "organism" ++ "_" ++ c.Type_))
    ∧ trackLabels (orgTrackListJSON
        { db := geneExonBackend, addr := "http://localhost:5000", encodeFails := false }
        ResponseWriter.fresh (rangeRequest "Oryza" "" []))
      = [["ref_seq", "Oryza_gene", "Oryza_exon"]] := by
  constructor
  · have ht := buildTracks_some env.addr (r.var "organism")
      (listSoTypes env.db (r.var "organism")).1.elems
    rw [← listSoTypes_nonNil] at ht
    refine ⟨{ RefSeqs := env.addr ++ "/link/" ++ r.var "organism" ++ "/refSeqs.json"
              Names := { Type_ := "REST", URL := env.addr ++ "/link/names" }
              Tracks := buildTracks env.addr (r.var "organism")
                (listSoTypes env.db (r.var "organism")).1 }, ?_, ht, ?_, ?_⟩
    · simp [orgTrackListJSON, encodeOrPanic, ResponseWriter.Write, okJSON_body_fresh]
    · simp only [ht]; simp [Slice.elems]
    · simp only [ht]; simp [Slice.elems, Track.Label, Function.comp_def]
  · decide

end Theorems

end Chado
